import Mathlib

/-!
Verification of the canteen-ordering core (cart, pricing strategies, order
state machine, observer subject, in-memory repositories) against its
specification.  JavaScript numbers are modelled as exact rationals (ℚ),
arrays as Lean lists, and thrown exceptions as `Except` values; stateful
methods become pure functions from the old store to the new store.
-/

/-- A catalog entry: `MenuItem` from the source (`id`, `name`, `price`,
`category`, `tags`, `available`). -/
structure MenuItem where
  id : String
  name : String
  price : ℚ
  category : String
  tags : List String
  available : Bool
deriving DecidableEq, Repr

/-- A cart line: `CartItem(menuItemId, quantity)` from the source. -/
structure CartItem where
  menuItemId : String
  quantity : ℚ
deriving DecidableEq, Repr

/-- Loop body of `SimplePricingStrategy.computeTotal`: resolve the cart
item's `menuItemId` with `menu.find(...)`; when a menu item is found and is
available, add `price * quantity` to the running total. -/
def simpleStep (menu : List MenuItem) (total : ℚ) (ci : CartItem) : ℚ :=
  match menu.find? (fun m => m.id == ci.menuItemId) with
  | some mi => if mi.available then total + mi.price * ci.quantity else total
  | none => total

/-- `SimplePricingStrategy.computeTotal(items, menu)` from the source:
a fold of `simpleStep` starting from `total = 0`. -/
def SimplePricingStrategy.computeTotal (items : List CartItem) (menu : List MenuItem) : ℚ :=
  items.foldl (simpleStep menu) 0

/-- Loop body of `ComboPricingStrategy.computeTotal`: same resolution as
`simpleStep`, accumulating the pair `(total, qtySum)`. -/
def comboStep (menu : List MenuItem) (acc : ℚ × ℚ) (ci : CartItem) : ℚ × ℚ :=
  match menu.find? (fun m => m.id == ci.menuItemId) with
  | some mi =>
      if mi.available then (acc.1 + mi.price * ci.quantity, acc.2 + ci.quantity) else acc
  | none => acc

/-- `ComboPricingStrategy.computeTotal(items, menu)` from the source: fold
`comboStep` from `(0, 0)`; if the matched quantity sum is `>= 3`, the final
total is multiplied by `0.9` (exactly `9/10`). -/
def ComboPricingStrategy.computeTotal (items : List CartItem) (menu : List MenuItem) : ℚ :=
  let p := items.foldl (comboStep menu) (0, 0)
  if 3 ≤ p.2 then p.1 * (9 / 10) else p.1

/-- Specification-side contribution of one cart item: `price * quantity` of
the first menu item whose id equals `ci.menuItemId` when that item is
available, and `0` when there is no match or the match is unavailable. -/
def itemContribution (menu : List MenuItem) (ci : CartItem) : ℚ :=
  match menu.find? (fun m => m.id == ci.menuItemId) with
  | some mi => if mi.available then mi.price * ci.quantity else 0
  | none => 0

/-- Specification-side matched quantity of one cart item: its quantity when
it resolves to an available menu item, `0` otherwise. -/
def matchedQuantity (menu : List MenuItem) (ci : CartItem) : ℚ :=
  match menu.find? (fun m => m.id == ci.menuItemId) with
  | some mi => if mi.available then ci.quantity else 0
  | none => 0

/-- Sum of the matched quantities of a cart (the quantity compared against
the combo threshold). -/
def matchedSum (items : List CartItem) (menu : List MenuItem) : ℚ :=
  (items.map (matchedQuantity menu)).sum

/-- The fixed linear status order `flow` used by `Order.advanceStatus`. -/
def statusFlow : List String :=
  ["RECEIVED", "PREPARING", "READY", "PICKED_UP"]

/-- `Order.advanceStatus()` from the source: look the current status up in
`statusFlow` with `indexOf`; when it is found at an index before the last,
move to the next entry, otherwise leave the status unchanged.  (`indexOf`
on an absent element returns the list length here, `-1` in the source; both
fail the guard, so the absent case is a no-op in both.) -/
def Order.advanceStatus (status : String) : String :=
  let idx := statusFlow.indexOf status
  if idx < statusFlow.length - 1 then statusFlow.getD (idx + 1) status else status

/-- Helper giving the effect of mutating `existing.quantity += qty` on the
first cart entry whose `menuItemId` equals `id`. -/
def bumpFirst : List CartItem → String → ℚ → List CartItem
  | [], _, _ => []
  | ci :: rest, id, qty =>
      if ci.menuItemId = id then { ci with quantity := ci.quantity + qty } :: rest
      else ci :: bumpFirst rest id qty

/-- `Cart.addItem(menuItemId, qty)` from the source: no-op when `qty <= 0`;
when `items.find(...)` locates an entry with that id its quantity is
incremented, otherwise a fresh `CartItem(menuItemId, qty)` is pushed. -/
def Cart.addItem (items : List CartItem) (menuItemId : String) (qty : ℚ) : List CartItem :=
  if qty ≤ 0 then items
  else if (items.find? (fun ci => ci.menuItemId == menuItemId)).isSome then
    bumpFirst items menuItemId qty
  else items ++ [⟨menuItemId, qty⟩]

/-- Run a sequence of `addItem` calls against an initially empty cart. -/
def Cart.runAdds (calls : List (String × ℚ)) : List CartItem :=
  calls.foldl (fun items c => Cart.addItem items c.1 c.2) []

/-- Observable quantity stored in the cart for an id: the quantity of the
first entry whose `menuItemId` equals `id`, `0` when the id is absent. -/
def Cart.qtyOf : List CartItem → String → ℚ
  | [], _ => 0
  | ci :: rest, id => if ci.menuItemId = id then ci.quantity else Cart.qtyOf rest id

/-- Specification-side sum of the positive `qty` arguments supplied for an
id in a sequence of `addItem` calls. -/
def Cart.positiveQtySum (calls : List (String × ℚ)) (id : String) : ℚ :=
  (calls.map (fun c => if c.1 = id ∧ 0 < c.2 then c.2 else 0)).sum

/-- An attached observer: its identity `oid` plus whether its
`onStatusChanged` callback throws when invoked. -/
structure Observer where
  oid : Nat
  throws : Bool
deriving DecidableEq, Repr

/-- `OrderSubject.attach(observer)` from the source: push the observer only
when `observers.includes(observer)` is false. -/
def OrderSubject.attach (observers : List Observer) (o : Observer) : List Observer :=
  if o ∈ observers then observers else observers ++ [o]

/-- `OrderSubject.detach(observer)` from the source: keep exactly the
entries different from the argument. -/
def OrderSubject.detach (observers : List Observer) (o : Observer) : List Observer :=
  observers.filter (fun x => decide (x ≠ o))

/-- `OrderSubject.notify(orderId, status)` from the source: a bare
`for (const o of this.observers) o.onStatusChanged(orderId, status)` with no
exception handling.  The result records the `onStatusChanged(orderId,
status)` calls actually made, in order, paired with `true` when the loop ran
to completion and `false` when an observer threw (aborting the loop). -/
def OrderSubject.notify : List Observer → String → String → List (Nat × String × String) × Bool
  | [], _, _ => ([], true)
  | o :: rest, orderId, status =>
      if o.throws then ([(o.oid, orderId, status)], false)
      else
        let r := OrderSubject.notify rest orderId status
        ((o.oid, orderId, status) :: r.1, r.2)

/-- Specification-side delivery list: the observers reached by an
unprotected loop — every observer up to and including the first one that
throws (all of them when none throws). -/
def deliveredTo : List Observer → List Observer
  | [] => []
  | o :: rest => if o.throws then [o] else o :: deliveredTo rest

/-- `PricingStrategy.computeTotal` on the abstract base class: always
`throw new Error("computeTotal must be implemented")`. -/
def PricingStrategy.computeTotal (_items : List CartItem) (_menu : List MenuItem) :
    Except String ℚ :=
  .error "computeTotal must be implemented"

/-- `OrderObserver.onStatusChanged` on the base class: its body is only the
comment `// abstract`, so the call returns normally and does nothing. -/
def OrderObserver.onStatusChanged (_orderId _status : String) : Except String Unit :=
  .ok ()

/-- `MenuRepository.findAll` on the base class: `throw new Error("Not implemented")`. -/
def MenuRepository.findAll : Except String (List MenuItem) :=
  .error "Not implemented"

/-- `MenuRepository.findById` on the base class. -/
def MenuRepository.findById (_id : String) : Except String (Option MenuItem) :=
  .error "Not implemented"

/-- `MenuRepository.save` on the base class. -/
def MenuRepository.save (_item : MenuItem) : Except String Unit :=
  .error "Not implemented"

/-- `MenuRepository.toggleAvailability` on the base class. -/
def MenuRepository.toggleAvailability (_id : String) (_available : Bool) : Except String Unit :=
  .error "Not implemented"

/-- `OrderRepository.save` on the base class. -/
def OrderRepository.save (_orderId : String) : Except String Unit :=
  .error "Not implemented"

/-- `OrderRepository.findById` on the base class. -/
def OrderRepository.findById (_id : String) : Except String (Option String) :=
  .error "Not implemented"

/-- `OrderRepository.findByStatus` on the base class. -/
def OrderRepository.findByStatus (_status : String) : Except String (List String) :=
  .error "Not implemented"

/-- `OrderRepository.updateStatus` on the base class. -/
def OrderRepository.updateStatus (_id : String) (_status : String) : Except String Unit :=
  .error "Not implemented"

/-- `SqliteMenuRepository.save(item)` from the source: `findIndex` by id,
then replace in place when found, else push. -/
def SqliteMenuRepository.save (items : List MenuItem) (item : MenuItem) : List MenuItem :=
  match items.findIdx? (fun m => m.id == item.id) with
  | some idx => items.set idx item
  | none => items ++ [item]

/-- Boolean test: the cart item resolves to no menu item, or to an
unavailable one, so it is skipped by both pricing strategies. -/
def unpriced (menu : List MenuItem) (ci : CartItem) : Bool :=
  match menu.find? (fun m => m.id == ci.menuItemId) with
  | some mi => !mi.available
  | none => true

/-- The spec's example menu: `m1` price 3.50 available, `m2` price 2.00
unavailable. -/
def demoMenu : List MenuItem :=
  [{ id := "m1", name := "Burger", price := 7 / 2, category := "MAIN",
     tags := ["HALAL"], available := true },
   { id := "m2", name := "Pizza Slice", price := 2, category := "MAIN",
     tags := [], available := false }]

theorem simpleStep_eq (menu : List MenuItem) (total : ℚ) (ci : CartItem) :
    simpleStep menu total ci = total + itemContribution menu ci := by
  unfold simpleStep itemContribution
  cases h : menu.find? (fun m => m.id == ci.menuItemId) with
  | none => simp
  | some mi => by_cases hav : mi.available <;> simp [hav]

theorem comboStep_eq (menu : List MenuItem) (acc : ℚ × ℚ) (ci : CartItem) :
    comboStep menu acc ci
      = (acc.1 + itemContribution menu ci, acc.2 + matchedQuantity menu ci) := by
  unfold comboStep itemContribution matchedQuantity
  cases h : menu.find? (fun m => m.id == ci.menuItemId) with
  | none => simp
  | some mi => by_cases hav : mi.available <;> simp [hav]

theorem simple_foldl_eq (menu : List MenuItem) (items : List CartItem) (acc : ℚ) :
    items.foldl (simpleStep menu) acc = acc + (items.map (itemContribution menu)).sum := by
  induction items generalizing acc with
  | nil => simp
  | cons ci rest ih =>
      simp only [List.foldl_cons, List.map_cons, List.sum_cons, ih, simpleStep_eq]
      ring

theorem combo_foldl_eq (menu : List MenuItem) (items : List CartItem) (acc : ℚ × ℚ) :
    items.foldl (comboStep menu) acc
      = (acc.1 + (items.map (itemContribution menu)).sum,
         acc.2 + (items.map (matchedQuantity menu)).sum) := by
  induction items generalizing acc with
  | nil => simp
  | cons ci rest ih =>
      simp only [List.foldl_cons, List.map_cons, List.sum_cons, ih, comboStep_eq]
      rw [Prod.mk.injEq]
      constructor <;> ring

theorem simple_eq_sum (items : List CartItem) (menu : List MenuItem) :
    SimplePricingStrategy.computeTotal items menu = (items.map (itemContribution menu)).sum := by
  unfold SimplePricingStrategy.computeTotal
  rw [simple_foldl_eq]; ring

theorem combo_eq (items : List CartItem) (menu : List MenuItem) :
    ComboPricingStrategy.computeTotal items menu
      = if 3 ≤ matchedSum items menu
        then SimplePricingStrategy.computeTotal items menu * (9 / 10)
        else SimplePricingStrategy.computeTotal items menu := by
  unfold ComboPricingStrategy.computeTotal matchedSum
  rw [combo_foldl_eq, simple_eq_sum]
  simp

theorem unpriced_zero (menu : List MenuItem) (ci : CartItem) (h : unpriced menu ci = true) :
    itemContribution menu ci = 0 ∧ matchedQuantity menu ci = 0 := by
  unfold unpriced at h
  unfold itemContribution matchedQuantity
  cases hf : menu.find? (fun m => m.id == ci.menuItemId) with
  | none => simp
  | some mi =>
      rw [hf] at h
      simp only [Bool.not_eq_true'] at h
      simp [h]

/-- C1: `SimplePricingStrategy.computeTotal` returns the sum over cart
items of `price * quantity`, the price taken from the first menu item whose
id equals the cart item's `menuItemId`; an unmatched cart item, or one whose
match is unavailable, contributes zero (skipped, not an error). -/
theorem simple_computeTotal_is_sum_of_contributions
    (items : List CartItem) (menu : List MenuItem) :
    SimplePricingStrategy.computeTotal items menu
      = (items.map (itemContribution menu)).sum :=
  simple_eq_sum items menu

/-- C2: `ComboPricingStrategy.computeTotal` equals the Simple total
discounted by a flat 10% (`* 0.9`) exactly when the sum of matched
quantities is at least 3, and equals the Simple total exactly otherwise. -/
theorem combo_computeTotal_is_discounted_simple
    (items : List CartItem) (menu : List MenuItem) :
    ComboPricingStrategy.computeTotal items menu
      = if 3 ≤ matchedSum items menu
        then SimplePricingStrategy.computeTotal items menu * (9 / 10)
        else SimplePricingStrategy.computeTotal items menu :=
  combo_eq items menu

/-- C3: `Order.advanceStatus` walks the fixed linear order
RECEIVED → PREPARING → READY → PICKED_UP; on PICKED_UP or on any status not
in the list it is a no-op, so it never wraps, skips, or errors. -/
theorem advanceStatus_spec :
    Order.advanceStatus "RECEIVED" = "PREPARING"
    ∧ Order.advanceStatus "PREPARING" = "READY"
    ∧ Order.advanceStatus "READY" = "PICKED_UP"
    ∧ Order.advanceStatus "PICKED_UP" = "PICKED_UP"
    ∧ (∀ s, s ∉ statusFlow → Order.advanceStatus s = s) := by
  refine ⟨by decide, by decide, by decide, by decide, fun s hs => ?_⟩
  have h4 : statusFlow.indexOf s = statusFlow.length := List.indexOf_eq_length.mpr hs
  simp only [Order.advanceStatus]
  rw [h4]
  simp [statusFlow]

/-- Witness for C3 at a status outside the flow list. -/
theorem advanceStatus_spec_witness :
    "BOGUS" ∉ statusFlow ∧ Order.advanceStatus "BOGUS" = "BOGUS" :=
  ⟨by decide, advanceStatus_spec.2.2.2.2 "BOGUS" (by decide)⟩

/-- C6 counterexample: the base `OrderObserver.onStatusChanged` does not
throw — its body is only a comment, so the call returns normally. -/
theorem onStatusChanged_base_returns_normally :
    OrderObserver.onStatusChanged "o1" "READY" = Except.ok () := rfl

/-- C6 (amended): the strategy and repository base operations throw for
every argument, but the base `OrderObserver.onStatusChanged` silently
returns for every argument instead of throwing. -/
theorem abstract_base_operations :
    (∀ items menu, PricingStrategy.computeTotal items menu
        = Except.error "computeTotal must be implemented")
    ∧ MenuRepository.findAll = Except.error "Not implemented"
    ∧ (∀ id, MenuRepository.findById id = Except.error "Not implemented")
    ∧ (∀ item, MenuRepository.save item = Except.error "Not implemented")
    ∧ (∀ id av, MenuRepository.toggleAvailability id av = Except.error "Not implemented")
    ∧ (∀ o, OrderRepository.save o = Except.error "Not implemented")
    ∧ (∀ id, OrderRepository.findById id = Except.error "Not implemented")
    ∧ (∀ st, OrderRepository.findByStatus st = Except.error "Not implemented")
    ∧ (∀ id st, OrderRepository.updateStatus id st = Except.error "Not implemented")
    ∧ (∀ oid st, OrderObserver.onStatusChanged oid st = Except.ok ()) :=
  ⟨fun _ _ => rfl, rfl, fun _ => rfl, fun _ => rfl, fun _ _ => rfl,
   fun _ => rfl, fun _ => rfl, fun _ => rfl, fun _ _ => rfl, fun _ _ => rfl⟩

/-- C9: the spec's worked examples — on the demo menu (`m1` at 3.50
available, `m2` at 2.00 unavailable), the cart `[m1 x 2, m2 x 1]` prices to
7.00 under both strategies, and the cart `[m1 x 4]` prices to 14.00 under
Simple and 12.60 under Combo. -/
theorem pricing_worked_examples :
    SimplePricingStrategy.computeTotal [⟨"m1", 2⟩, ⟨"m2", 1⟩] demoMenu = 7
    ∧ ComboPricingStrategy.computeTotal [⟨"m1", 2⟩, ⟨"m2", 1⟩] demoMenu = 7
    ∧ SimplePricingStrategy.computeTotal [⟨"m1", 4⟩] demoMenu = 14
    ∧ ComboPricingStrategy.computeTotal [⟨"m1", 4⟩] demoMenu = 63 / 5 := by
  refine ⟨?_, ?_, ?_, ?_⟩ <;>
    · simp [SimplePricingStrategy.computeTotal, ComboPricingStrategy.computeTotal,
        simpleStep, comboStep, demoMenu, List.find?, List.foldl]
      try norm_num

/-- C10: cart items that resolve to no menu item or to an unavailable one
count neither toward the combo total nor toward the discount threshold:
appending any number of such items changes nothing, and a cart whose
matched quantities sum below 3 gets no discount regardless of them. -/
theorem combo_threshold_ignores_unpriced
    (items extra : List CartItem) (menu : List MenuItem)
    (h : ∀ ci ∈ extra, unpriced menu ci = true) :
    matchedSum (items ++ extra) menu = matchedSum items menu
    ∧ ComboPricingStrategy.computeTotal (items ++ extra) menu
        = ComboPricingStrategy.computeTotal items menu
    ∧ (matchedSum items menu < 3 →
        ComboPricingStrategy.computeTotal (items ++ extra) menu
          = SimplePricingStrategy.computeTotal items menu) := by
  have hzq : (extra.map (matchedQuantity menu)).sum = 0 := by
    refine List.sum_eq_zero ?_
    intro x hx
    rcases List.mem_map.mp hx with ⟨ci, hci, rfl⟩
    exact (unpriced_zero menu ci (h ci hci)).2
  have hzc : (extra.map (itemContribution menu)).sum = 0 := by
    refine List.sum_eq_zero ?_
    intro x hx
    rcases List.mem_map.mp hx with ⟨ci, hci, rfl⟩
    exact (unpriced_zero menu ci (h ci hci)).1
  have hm : matchedSum (items ++ extra) menu = matchedSum items menu := by
    unfold matchedSum
    rw [List.map_append, List.sum_append, hzq, add_zero]
  have hs : SimplePricingStrategy.computeTotal (items ++ extra) menu
      = SimplePricingStrategy.computeTotal items menu := by
    rw [simple_eq_sum, simple_eq_sum, List.map_append, List.sum_append, hzc, add_zero]
  have hc : ComboPricingStrategy.computeTotal (items ++ extra) menu
      = ComboPricingStrategy.computeTotal items menu := by
    rw [combo_eq, combo_eq, hm, hs]
  exact ⟨hm, hc, fun hlt => by rw [hc, combo_eq, if_neg (not_le.mpr hlt)]⟩

/-- Witness for C10: one available item of quantity 2 plus an unavailable
and an unknown item of large quantities still price without a discount. -/
theorem combo_threshold_ignores_unpriced_witness :
    ComboPricingStrategy.computeTotal ([⟨"m1", 2⟩] ++ [⟨"m2", 100⟩, ⟨"zz", 50⟩]) demoMenu
      = SimplePricingStrategy.computeTotal [⟨"m1", 2⟩] demoMenu :=
  (combo_threshold_ignores_unpriced [⟨"m1", 2⟩] [⟨"m2", 100⟩, ⟨"zz", 50⟩] demoMenu
      (by decide)).2.2
    (by norm_num [matchedSum, matchedQuantity, demoMenu])

theorem addItem_nonpos (items : List CartItem) (id : String) (qty : ℚ) (h : qty ≤ 0) :
    Cart.addItem items id qty = items := by
  unfold Cart.addItem
  rw [if_pos h]

theorem bumpFirst_ids (items : List CartItem) (id : String) (qty : ℚ) :
    (bumpFirst items id qty).map CartItem.menuItemId = items.map CartItem.menuItemId := by
  induction items with
  | nil => rfl
  | cons ci rest ih =>
      unfold bumpFirst
      by_cases hid : ci.menuItemId = id
      · simp [hid]
      · simp [hid, ih]

theorem find_item_isSome_iff (items : List CartItem) (id : String) :
    (items.find? (fun ci => ci.menuItemId == id)).isSome = true
      ↔ ∃ ci ∈ items, ci.menuItemId = id := by
  rw [List.find?_isSome]
  simp only [beq_iff_eq]

theorem qtyOf_bumpFirst (items : List CartItem) (id : String) (qty : ℚ)
    (h : ∃ ci ∈ items, ci.menuItemId = id) :
    Cart.qtyOf (bumpFirst items id qty) id = Cart.qtyOf items id + qty := by
  induction items with
  | nil => simp at h
  | cons ci rest ih =>
      by_cases hid : ci.menuItemId = id
      · simp [bumpFirst, Cart.qtyOf, hid]
      · have h' : ∃ ci' ∈ rest, ci'.menuItemId = id := by
          rcases h with ⟨x, hx, hxe⟩
          rcases List.mem_cons.mp hx with rfl | hx'
          · exact absurd hxe hid
          · exact ⟨x, hx', hxe⟩
        simp [bumpFirst, Cart.qtyOf, hid, ih h']

theorem qtyOf_bumpFirst_other (items : List CartItem) (id id' : String) (qty : ℚ)
    (hne : id' ≠ id) :
    Cart.qtyOf (bumpFirst items id qty) id' = Cart.qtyOf items id' := by
  induction items with
  | nil => rfl
  | cons ci rest ih =>
      have hne' : ¬ id = id' := fun hc => hne hc.symm
      by_cases hid : ci.menuItemId = id
      · simp [bumpFirst, Cart.qtyOf, hid, hne']
      · by_cases hid' : ci.menuItemId = id'
        · simp [bumpFirst, Cart.qtyOf, hid, hid', hne]
        · simp [bumpFirst, Cart.qtyOf, hid, hid', ih]

theorem qtyOf_append_single_same (items : List CartItem) (id : String) (qty : ℚ)
    (h : ¬ ∃ ci ∈ items, ci.menuItemId = id) :
    Cart.qtyOf (items ++ [⟨id, qty⟩]) id = qty := by
  induction items with
  | nil => simp [Cart.qtyOf]
  | cons ci rest ih =>
      have hid : ¬ ci.menuItemId = id := fun hc => h ⟨ci, List.mem_cons_self ci rest, hc⟩
      have h' : ¬ ∃ ci' ∈ rest, ci'.menuItemId = id := by
        rintro ⟨x, hx, hxe⟩
        exact h ⟨x, List.mem_cons_of_mem ci hx, hxe⟩
      simp [Cart.qtyOf, hid, ih h']

theorem qtyOf_append_single_other (items : List CartItem) (id id' : String) (qty : ℚ)
    (hne : id' ≠ id) :
    Cart.qtyOf (items ++ [⟨id, qty⟩]) id' = Cart.qtyOf items id' := by
  have hne' : ¬ id = id' := fun hc => hne hc.symm
  induction items with
  | nil => simp [Cart.qtyOf, hne']
  | cons ci rest ih =>
      by_cases hid' : ci.menuItemId = id'
      · simp [Cart.qtyOf, hid']
      · simp [Cart.qtyOf, hid', ih]

theorem qtyOf_eq_zero_of_absent (items : List CartItem) (id : String)
    (h : ¬ ∃ ci ∈ items, ci.menuItemId = id) :
    Cart.qtyOf items id = 0 := by
  induction items with
  | nil => rfl
  | cons ci rest ih =>
      have hid : ¬ ci.menuItemId = id := fun hc => h ⟨ci, List.mem_cons_self ci rest, hc⟩
      have h' : ¬ ∃ ci' ∈ rest, ci'.menuItemId = id := by
        rintro ⟨x, hx, hxe⟩
        exact h ⟨x, List.mem_cons_of_mem ci hx, hxe⟩
      simp [Cart.qtyOf, hid, ih h']

theorem qtyOf_addItem_same (items : List CartItem) (id : String) (qty : ℚ) (h : 0 < qty) :
    Cart.qtyOf (Cart.addItem items id qty) id = Cart.qtyOf items id + qty := by
  unfold Cart.addItem
  rw [if_neg (not_le.mpr h)]
  by_cases hf : (items.find? (fun ci => ci.menuItemId == id)).isSome = true
  · rw [if_pos hf]
    exact qtyOf_bumpFirst items id qty ((find_item_isSome_iff items id).mp hf)
  · rw [if_neg hf]
    have habs : ¬ ∃ ci ∈ items, ci.menuItemId = id :=
      fun hc => hf ((find_item_isSome_iff items id).mpr hc)
    rw [qtyOf_append_single_same items id qty habs, qtyOf_eq_zero_of_absent items id habs,
      zero_add]

theorem qtyOf_addItem_other (items : List CartItem) (id id' : String) (qty : ℚ)
    (hne : id' ≠ id) :
    Cart.qtyOf (Cart.addItem items id qty) id' = Cart.qtyOf items id' := by
  unfold Cart.addItem
  by_cases hq : qty ≤ 0
  · rw [if_pos hq]
  · rw [if_neg hq]
    by_cases hf : (items.find? (fun ci => ci.menuItemId == id)).isSome = true
    · rw [if_pos hf]
      exact qtyOf_bumpFirst_other items id id' qty hne
    · rw [if_neg hf]
      exact qtyOf_append_single_other items id id' qty hne

theorem addItem_nodup (items : List CartItem) (id : String) (qty : ℚ)
    (h : (items.map CartItem.menuItemId).Nodup) :
    ((Cart.addItem items id qty).map CartItem.menuItemId).Nodup := by
  unfold Cart.addItem
  by_cases hq : qty ≤ 0
  · rwa [if_pos hq]
  · rw [if_neg hq]
    by_cases hf : (items.find? (fun ci => ci.menuItemId == id)).isSome = true
    · rw [if_pos hf, bumpFirst_ids]
      exact h
    · rw [if_neg hf]
      have habs : ¬ ∃ ci ∈ items, ci.menuItemId = id :=
        fun hc => hf ((find_item_isSome_iff items id).mpr hc)
      have hmem : id ∉ items.map CartItem.menuItemId := by
        intro hin
        rcases List.mem_map.mp hin with ⟨ci, hci, hcieq⟩
        exact habs ⟨ci, hci, hcieq⟩
      rw [List.map_append]
      simp only [List.nodup_append, List.map_cons, List.map_nil]
      refine ⟨h, List.nodup_singleton id, ?_⟩
      intro x hx hxmem
      rcases List.mem_singleton.mp hxmem with rfl
      exact hmem hx

theorem runAdds_qtyOf_aux (calls : List (String × ℚ)) (items : List CartItem) (id : String) :
    Cart.qtyOf (calls.foldl (fun its c => Cart.addItem its c.1 c.2) items) id
      = Cart.qtyOf items id + Cart.positiveQtySum calls id := by
  induction calls generalizing items with
  | nil => simp [Cart.positiveQtySum]
  | cons c rest ih =>
      rw [List.foldl_cons, ih]
      unfold Cart.positiveQtySum
      simp only [List.map_cons, List.sum_cons]
      by_cases hpos : 0 < c.2
      · by_cases hid : c.1 = id
        · subst hid
          rw [qtyOf_addItem_same items c.1 c.2 hpos]
          simp [hpos]
          ring
        · rw [qtyOf_addItem_other items c.1 id c.2 (fun hc => hid hc.symm)]
          simp [hid]
      · rw [addItem_nonpos items c.1 c.2 (not_lt.mp hpos)]
        simp [hpos]

theorem runAdds_nodup_aux (calls : List (String × ℚ)) (items : List CartItem)
    (h : (items.map CartItem.menuItemId).Nodup) :
    ((calls.foldl (fun its c => Cart.addItem its c.1 c.2) items).map CartItem.menuItemId).Nodup := by
  induction calls generalizing items with
  | nil => simpa using h
  | cons c rest ih =>
      rw [List.foldl_cons]
      exact ih _ (addItem_nodup items c.1 c.2 h)

/-- C4: over any sequence of `addItem` calls from an empty cart, the cart
keeps at most one entry per `menuItemId`, the stored quantity for each id is
the sum of the positive `qty` arguments supplied for it, and a call with
`qty <= 0` leaves any cart unchanged. -/
theorem cart_addItem_spec (calls : List (String × ℚ)) :
    ((Cart.runAdds calls).map CartItem.menuItemId).Nodup
    ∧ (∀ id, Cart.qtyOf (Cart.runAdds calls) id = Cart.positiveQtySum calls id)
    ∧ (∀ items id qty, qty ≤ 0 → Cart.addItem items id qty = items) := by
  refine ⟨runAdds_nodup_aux calls [] (by simp), fun id => ?_, addItem_nonpos⟩
  unfold Cart.runAdds
  rw [runAdds_qtyOf_aux]
  simp [Cart.qtyOf]

/-- Witness for C4 on a concrete call sequence (including a rejected
negative quantity). -/
theorem cart_addItem_spec_witness :
    Cart.qtyOf (Cart.runAdds [("a", 2), ("b", -3), ("a", 1)]) "a"
        = Cart.positiveQtySum [("a", 2), ("b", -3), ("a", 1)] "a"
    ∧ Cart.addItem [] "x" (-1 : ℚ) = [] :=
  ⟨(cart_addItem_spec [("a", 2), ("b", -3), ("a", 1)]).2.1 "a",
   (cart_addItem_spec []).2.2 [] "x" (-1) (by norm_num)⟩

theorem notify_eq_deliveredTo (observers : List Observer) (orderId status : String) :
    (OrderSubject.notify observers orderId status).1
      = (deliveredTo observers).map (fun o => (o.oid, orderId, status)) := by
  induction observers with
  | nil => rfl
  | cons o rest ih =>
      by_cases ht : o.throws
      · simp [OrderSubject.notify, deliveredTo, ht]
      · simp [OrderSubject.notify, deliveredTo, ht, ih]

theorem deliveredTo_of_no_throw (observers : List Observer)
    (h : ∀ o ∈ observers, o.throws = false) : deliveredTo observers = observers := by
  induction observers with
  | nil => rfl
  | cons o rest ih =>
      simp [deliveredTo, h o (List.mem_cons_self o rest),
        ih fun x hx => h x (List.mem_cons_of_mem o hx)]

/-- C5 counterexample: with a throwing observer attached first, `notify`
never reaches the second observer, so delivery is not isolated per call. -/
theorem notify_throwing_blocks_delivery :
    (OrderSubject.notify [⟨0, true⟩, ⟨1, false⟩] "o1" "READY").1
      ≠ [(0, "o1", "READY"), (1, "o1", "READY")] := by
  decide

/-- C5 (amended): `notify` synchronously invokes `onStatusChanged(orderId,
status)` in attachment order, but only on the observers up to and including
the first one that throws — the unprotected loop lets a thrown exception
prevent delivery to all later observers.  When no attached observer throws,
every observer is invoked, in attachment order. -/
theorem notify_delivery (observers : List Observer) (orderId status : String) :
    (OrderSubject.notify observers orderId status).1
      = (deliveredTo observers).map (fun o => (o.oid, orderId, status))
    ∧ ((∀ o ∈ observers, o.throws = false) →
        (OrderSubject.notify observers orderId status).1
          = observers.map (fun o => (o.oid, orderId, status))) :=
  ⟨notify_eq_deliveredTo observers orderId status,
   fun h => by rw [notify_eq_deliveredTo, deliveredTo_of_no_throw observers h]⟩

/-- Witness for C5 (amended) with two non-throwing observers. -/
theorem notify_delivery_witness :
    (OrderSubject.notify [⟨0, false⟩, ⟨1, false⟩] "o1" "READY").1
      = ([⟨0, false⟩, ⟨1, false⟩] : List Observer).map (fun o => (o.oid, "o1", "READY")) :=
  (notify_delivery [⟨0, false⟩, ⟨1, false⟩] "o1" "READY").2 (by decide)

/-- C7: `attach` is set-like — attaching the same observer twice equals
attaching it once, a doubly attached observer is registered exactly once
(so one `notify` invokes it exactly once), and `detach` of an unregistered
observer is a no-op. -/
theorem attach_detach_spec (observers : List Observer) (o : Observer) :
    OrderSubject.attach (OrderSubject.attach observers o) o = OrderSubject.attach observers o
    ∧ (o ∉ observers → (OrderSubject.attach (OrderSubject.attach observers o) o).count o = 1)
    ∧ (∀ orderId status,
        (OrderSubject.notify (OrderSubject.attach (OrderSubject.attach [] o) o) orderId status).1
          = [(o.oid, orderId, status)])
    ∧ (o ∉ observers → OrderSubject.detach observers o = observers) := by
  have hidem : OrderSubject.attach (OrderSubject.attach observers o) o
      = OrderSubject.attach observers o := by
    unfold OrderSubject.attach
    by_cases h : o ∈ observers
    · simp [h]
    · simp [h]
  refine ⟨hidem, fun h => ?_, fun orderId status => ?_, fun h => ?_⟩
  · rw [hidem]
    unfold OrderSubject.attach
    rw [if_neg h, List.count_append]
    simp [List.count_eq_zero.mpr h]
  · have h0 : OrderSubject.attach (OrderSubject.attach [] o) o = [o] := by
      unfold OrderSubject.attach
      simp
    rw [h0]
    rcases o with ⟨i, t⟩
    cases t <;> simp [OrderSubject.notify]
  · unfold OrderSubject.detach
    rw [List.filter_eq_self]
    intro x hx
    simp only [decide_eq_true_eq]
    rintro rfl
    exact h hx

/-- Witness for C7 starting from an empty observer list. -/
theorem attach_detach_spec_witness :
    (OrderSubject.attach (OrderSubject.attach [] ⟨0, false⟩) ⟨0, false⟩).count
        (⟨0, false⟩ : Observer) = 1
    ∧ OrderSubject.detach [] ⟨0, false⟩ = [] :=
  ⟨(attach_detach_spec [] ⟨0, false⟩).2.1 (by simp),
   (attach_detach_spec [] ⟨0, false⟩).2.2.2 (by simp)⟩

/-- C8: `SqliteMenuRepository.save` is an upsert by id — an unseen id is
appended (the stored list grows by exactly one), an existing id keeps the
length and replaces the first record carrying that id in place. -/
theorem menuRepo_save_upsert (items : List MenuItem) (item : MenuItem) :
    ((∀ m ∈ items, m.id ≠ item.id) →
      SqliteMenuRepository.save items item = items ++ [item]
      ∧ (SqliteMenuRepository.save items item).length = items.length + 1)
    ∧ (item.id ∈ items.map MenuItem.id →
      (SqliteMenuRepository.save items item).length = items.length
      ∧ ∃ idx, items.findIdx? (fun m => m.id == item.id) = some idx
          ∧ SqliteMenuRepository.save items item = items.set idx item) := by
  constructor
  · intro h
    have hnone : items.findIdx? (fun m => m.id == item.id) = none := by
      rw [List.findIdx?_eq_none_iff]
      intro x hx
      exact beq_eq_false_iff_ne.mpr (h x hx)
    unfold SqliteMenuRepository.save
    rw [hnone]
    simp
  · intro h
    rcases hf : items.findIdx? (fun m => m.id == item.id) with _ | idx
    · exfalso
      rcases List.mem_map.mp h with ⟨m, hm, hmid⟩
      have := (List.findIdx?_eq_none_iff.mp hf) m hm
      rw [beq_eq_false_iff_ne] at this
      exact this hmid
    · have hsave : SqliteMenuRepository.save items item = items.set idx item := by
        unfold SqliteMenuRepository.save
        rw [hf]
      exact ⟨by rw [hsave, List.length_set], idx, hf, hsave⟩

/-- Witness for C8: appending a new id grows the demo menu by one; saving
over an existing id keeps its length. -/
theorem menuRepo_save_upsert_witness :
    (SqliteMenuRepository.save demoMenu ⟨"m9", "Tea", 1, "DRINK", [], true⟩).length
        = demoMenu.length + 1
    ∧ (SqliteMenuRepository.save demoMenu ⟨"m1", "Big Burger", 4, "MAIN", [], true⟩).length
        = demoMenu.length :=
  ⟨((menuRepo_save_upsert demoMenu ⟨"m9", "Tea", 1, "DRINK", [], true⟩).1 (by decide)).2,
   ((menuRepo_save_upsert demoMenu ⟨"m1", "Big Burger", 4, "MAIN", [], true⟩).2 (by decide)).1⟩
